import Mathlib

/-!
Shallow embedding of the umg-game-server repository.

The repository contains two near-duplicate iterations of the same design:
`src/unnamed/part_000` (the full game-logic variant, with territories,
resources, `processAction`, `applyTurnEndEffects`, `getNextPlayerId`) and
`src/server.js` (a reduced variant with score/isTurn players, host
reassignment on disconnect, and a stubbed END_TURN).  Namespace `UMG`
models `src/unnamed/part_000`; namespace `SV` models the parts of
`src/server.js` that the claims cite (its disconnect handler with host
reassignment).

JavaScript objects keyed by strings preserve insertion order, so every
object-used-as-map is embedded as an association list `List (String × α)`
in insertion order; `Object.keys` is `keysOf`, property lookup is
`lookupKey`, in-place mutation of the value at an existing key is
`setEntry`, `delete` is `removeKey`, and `obj[k] = v` is `insertEntry`.

JavaScript numbers holding money/resources are embedded as `Int`
(they are only ever added and subtracted by integer amounts).
The `coords` field of a territory is display-only (floating point,
no gameplay effect) and is omitted from the embedding.
`Math.random()`-driven choices are embedded as explicit parameters
(an index for the random element selections, a function for the random
production values).
-/

namespace UMG

/-- Lookup of `m[k]` on a JS object embedded as an insertion-ordered
association list: the value at the first matching key, or `none`. -/
def lookupKey (m : List (String × α)) (k : String) : Option α :=
  match m with
  | [] => none
  | (k', v) :: rest => if k' = k then some v else lookupKey rest k

/-- The keys of the object in insertion order (`Object.keys`). -/
def keysOf (m : List (String × α)) : List String :=
  m.map Prod.fst

/-- The values of the object in insertion order (`Object.values`). -/
def valuesOf (m : List (String × α)) : List α :=
  m.map Prod.snd

/-- In-place mutation of the value stored at key `k` (every entry with that
key, keys being unique in all states the server builds). -/
def setEntry (m : List (String × α)) (k : String) (v : α) : List (String × α) :=
  m.map (fun p => if p.1 = k then (k, v) else p)

/-- Embedding of `obj[k] = v`: updates in place if the key exists (JS keeps
the key's position), else appends (JS appends new string keys). -/
def insertEntry (m : List (String × α)) (k : String) (v : α) : List (String × α) :=
  if m.any (fun p => p.1 = k) then setEntry m k v else m ++ [(k, v)]

/-- Embedding of `delete obj[k]`. -/
def removeKey (m : List (String × α)) (k : String) : List (String × α) :=
  m.filter (fun p => ¬ p.1 = k)

/-- JS truthiness of an optional string (`null` and `""` are falsy). -/
def jsTruthy : Option String → Bool
  | none => false
  | some s => s ≠ ""

/-- JS `a || b` on optional strings: `b` when `a` is falsy. -/
def jsOr (a : Option String) (b : String) : String :=
  match a with
  | none => b
  | some s => if s = "" then b else s

/-- JS `Array.prototype.indexOf`: index of the first occurrence, `-1` when
absent. -/
def jsIndexOf (l : List String) (x : String) : Int :=
  match l with
  | [] => -1
  | y :: ys =>
    if y = x then 0
    else
      let r := jsIndexOf ys x
      if r = -1 then -1 else r + 1

/-- One territory (`createInitialMap` entry).  The display-only float
`coords` field is omitted. -/
structure Territory where
  id : String
  name : String
  ownerId : Option String
  militaryUnits : Nat
  productionValue : Int
  deriving Repr, DecidableEq

/-- A player's `resources` object. -/
structure Resources where
  money : Int
  military : Int
  production : Int
  research : Int
  deriving Repr, DecidableEq

/-- One player as built by the `joinServer` handler. -/
structure Player where
  id : String
  name : String
  color : String
  isReady : Bool
  resources : Resources
  deriving Repr, DecidableEq

/-- Room settings (`createServer` defaults spread with `data.settings`). -/
structure Settings where
  gameSpeed : String
  mapSize : String
  maxPlayers : Nat
  startingMoney : Int
  startingMilitary : Int
  deriving Repr, DecidableEq

/-- The room's `gameState` object.  The `diplomacy` sub-object is never
read or written by any handler and is omitted. -/
structure GameState where
  gamePhase : String
  currentTurn : Nat
  currentTurnPlayerId : Option String
  territories : List (String × Territory)
  deriving Repr, DecidableEq

/-- One game room as stored in the `GAMES` registry. -/
structure Game where
  id : String
  serverName : String
  hostName : String
  password : Option String
  settings : Settings
  players : List (String × Player)
  gameState : GameState
  deriving Repr, DecidableEq

/-- Fixed claim cost (`BASE_CLAIM_COST`). -/
def BASE_CLAIM_COST : Int := 500

/-- Fixed unit build cost (`UNIT_COST`). -/
def UNIT_COST : Int := 100

/-- The inbound `action` object of `playerAction`; only the fields the
handlers read are modelled, absent fields as `none`. -/
structure Action where
  type : String
  territoryId : Option String
  targetId : Option String
  deriving Repr, DecidableEq

/-- Observable emissions of a handler run, in order.  `senderChat` and
`senderFailed` go only to the acting socket, `roomChat` and `roomState`
are room-wide broadcasts, `targetMsg` goes to one target socket,
`logMsg` is a server console line, `crash` marks a point where the JS
would throw on an `undefined` dereference (unreachable from well-formed
states). -/
inductive Emit where
  | senderChat (msg kind : String)
  | senderFailed (reason : String)
  | senderEvent (event : String)
  | roomChat (room msg kind : String)
  | roomState (room : String)
  | targetMsg (target event : String)
  | logMsg (msg : String)
  | crash
  deriving Repr, DecidableEq

/-- `createInitialMap(mapSize)`: territories `T-1 .. T-count`, all unowned,
zero military; the random production roll `Math.floor(Math.random()*500)+100`
is embedded through the oracle `prodRand`. -/
def createInitialMap (mapSize : String) (prodRand : Nat → Nat) : List (String × Territory) :=
  let count := if mapSize = "small" then 50 else
               if mapSize = "medium" then 100 else
               if mapSize = "large" then 150 else 100
  (List.range count).map (fun i =>
    let n := i + 1
    ("T-" ++ toString n,
     { id := "T-" ++ toString n
       name := "Sector " ++ toString n
       ownerId := none
       militaryUnits := 0
       productionValue := (prodRand n % 500 : Nat) + 100 }))

/-- `applyTurnEndEffects(game)`: every player gains `research + production`
and pays `10` per owned territory, applied to `money`. -/
def applyTurnEndEffects (game : Game) : Game :=
  { game with players := game.players.map (fun q =>
      let pId := q.1
      let player := q.2
      let totalIncome := player.resources.research + player.resources.production
      let maintenanceCost :=
        (((valuesOf game.gameState.territories).filter
            (fun t => t.ownerId = some pId)).length : Int) * 10
      (pId, { player with resources := { player.resources with
                money := player.resources.money + totalIncome - maintenanceCost } })) }

/-- `getNextPlayerId(game)`: next key after the current turn holder in
`Object.keys` order, wrapping; first key when no holder is set; `none`
when the room is empty. -/
def getNextPlayerId (game : Game) : Option String :=
  let playerIDs := keysOf game.players
  if playerIDs.length = 0 then none
  else
    match game.gameState.currentTurnPlayerId with
    | none => playerIDs.head?
    | some cur =>
      let currentIndex := jsIndexOf playerIDs cur
      let nextIndex := ((currentIndex + 1) % (playerIDs.length : Int)).toNat
      playerIDs.get? nextIndex

/-- `processAction(game, playerID, action)`.  `randIdx` embeds the
`Math.floor(Math.random()*len)` draws (used modulo the candidate count).
Returns the updated room and the emissions in order; every branch that
does not return early ends with the `stateUpdate` broadcast to the room. -/
def processAction (game : Game) (playerID : String) (action : Action) (randIdx : Nat) :
    Game × List Emit :=
  let state := game.gameState
  if state.currentTurnPlayerId ≠ some playerID ∧ action.type ≠ "DISCONNECT" then
    (game, [Emit.senderChat "ERROR: It is not your turn to act." "error"])
  else if action.type = "CLAIM_TERRITORY" then
    match action.territoryId.bind (lookupKey state.territories) with
    | none => (game, [Emit.senderChat "ERROR: Territory not found." "error"])
    | some terrClaim =>
      if terrClaim.ownerId ≠ none then
        (game, [Emit.senderChat "ERROR: Territory is already claimed." "error"])
      else
        match lookupKey game.players playerID with
        | none => (game, [Emit.crash])
        | some player =>
          if player.resources.money < BASE_CLAIM_COST then
            (game, [Emit.senderChat
              ("ERROR: Not enough money! Requires $" ++ toString BASE_CLAIM_COST ++ ".") "error"])
          else
            let player' := { player with resources := { player.resources with
                money := player.resources.money - BASE_CLAIM_COST,
                production := player.resources.production + terrClaim.productionValue } }
            let terr' := { terrClaim with ownerId := some playerID, militaryUnits := 1 }
            ({ game with
                players := setEntry game.players playerID player',
                gameState := { state with
                  territories := setEntry state.territories
                    (action.territoryId.getD "") terr' } },
             [Emit.roomState game.id])
  else if action.type = "ATTACK_TERRITORY" then
    match lookupKey game.players playerID with
    | none => (game, [Emit.crash])
    | some _ => (game, [Emit.roomState game.id])
  else if action.type = "EXPAND_LAND" then
    let unclaimed := (valuesOf state.territories).filter (fun t => t.ownerId = none)
    if unclaimed.length = 0 then
      (game, [Emit.senderChat "ERROR: No unclaimed land left to expand into!" "error"])
    else
      match unclaimed.get? (randIdx % unclaimed.length) with
      | none => (game, [Emit.crash])
      | some targetTerritory =>
        match lookupKey game.players playerID with
        | none => (game, [Emit.crash])
        | some player =>
          if player.resources.money < BASE_CLAIM_COST then
            (game, [Emit.senderChat
              ("ERROR: Expansion requires $" ++ toString BASE_CLAIM_COST ++ ".") "error"])
          else
            let player' := { player with resources := { player.resources with
                money := player.resources.money - BASE_CLAIM_COST,
                production := player.resources.production + targetTerritory.productionValue } }
            let terr' := { targetTerritory with ownerId := some playerID, militaryUnits := 1 }
            ({ game with
                players := setEntry game.players playerID player',
                gameState := { state with
                  territories := setEntry state.territories targetTerritory.id terr' } },
             [Emit.roomState game.id])
  else if action.type = "BUILD_UNIT" then
    let ownedTerritories := (valuesOf state.territories).filter
      (fun t => t.ownerId = some playerID)
    if ownedTerritories.length = 0 then
      (game, [Emit.senderChat "ERROR: You must own a territory to build units." "error"])
    else
      match lookupKey game.players playerID with
      | none => (game, [Emit.crash])
      | some player =>
        if player.resources.money < UNIT_COST then
          (game, [Emit.senderChat
            ("ERROR: Building a unit requires $" ++ toString UNIT_COST ++ ".") "error"])
        else
          match ownedTerritories.get? (randIdx % ownedTerritories.length) with
          | none => (game, [Emit.crash])
          | some buildTarget =>
            let player' := { player with resources := { player.resources with
                money := player.resources.money - UNIT_COST } }
            let terr' := { buildTarget with militaryUnits := buildTarget.militaryUnits + 1 }
            ({ game with
                players := setEntry game.players playerID player',
                gameState := { state with
                  territories := setEntry state.territories buildTarget.id terr' } },
             [Emit.roomState game.id])
  else if action.type = "PROPOSE_TRUCE" then
    match action.targetId.bind (lookupKey game.players) with
    | none => (game, [Emit.senderChat "ERROR: Target player not found." "error"])
    | some _ =>
      match lookupKey game.players playerID with
      | none => (game, [Emit.crash])
      | some _ =>
        (game, [Emit.targetMsg (action.targetId.getD "") "truceProposal",
                Emit.roomState game.id])
  else if action.type = "RESEARCH" ∨ action.type = "CREATE_BUILDING" ∨
          action.type = "UPGRADE_TERRITORY" ∨ action.type = "START_TASK" ∨
          action.type = "PROPOSE_ALLY" ∨ action.type = "PROPOSE_TRADE" then
    (game, [Emit.senderChat
      ("Action " ++ action.type ++ " received. Server processing...") "system",
      Emit.roomState game.id])
  else if action.type = "END_TURN" then
    let game1 := applyTurnEndEffects game
    let nextPlayerId := getNextPlayerId game1
    let state1 := game1.gameState
    let wraps : Bool :=
      match nextPlayerId, (keysOf game1.players).head? with
      | some n, some f => n = f
      | _, _ => false
    let game2 :=
      if wraps ∧ state1.gamePhase = "ACTIVE" then
        { game1 with gameState := { state1 with currentTurn := state1.currentTurn + 1 } }
      else game1
    let game3 := { game2 with gameState :=
      { game2.gameState with currentTurnPlayerId := nextPlayerId } }
    match lookupKey game.players playerID with
    | none => (game3, [Emit.crash])
    | some _ => (game3, [Emit.roomState game.id])
  else
    (game, [Emit.logMsg ("Unknown action type: " ++ action.type),
            Emit.roomState game.id])

/-- JS `x || null` on an optional string (empty string collapses to null). -/
def jsOrNull (a : Option String) : Option String :=
  match a with
  | none => none
  | some s => if s = "" then none else some s

/-- The inbound `data` of the `createServer` handler.  `settings` is the
result of the spread `{ gameSpeed:'Standard', mapSize:'medium', maxPlayers:8,
startingMoney:5000, startingMilitary:20, ...data.settings }` (the client may
override any default). -/
structure CreateData where
  serverName : Option String
  hostName : Option String
  password : Option String
  settings : Settings
  deriving Repr, DecidableEq

/-- `createServer` handler body: builds and registers the new room under the
generated id `newID`; the creating socket is NOT joined to the room. -/
def createServer (games : List (String × Game)) (newID : String) (data : CreateData)
    (prodRand : Nat → Nat) : List (String × Game) × List Emit :=
  let newGame : Game :=
    { id := newID
      serverName := jsOr data.serverName ("Game " ++ newID)
      hostName := jsOr data.hostName "Host"
      password := jsOrNull data.password
      settings := data.settings
      players := []
      gameState :=
        { gamePhase := "LOBBY"
          currentTurn := 1
          currentTurnPlayerId := none
          territories := createInitialMap data.settings.mapSize prodRand } }
  (insertEntry games newID newGame, [Emit.senderEvent "serverCreated"])

/-- `joinServer` handler body.  Returns the updated registry, the new value
of the socket's `currentGameID` closure variable (`none` means unchanged),
and the emissions.  `color` embeds the random color roll. -/
def joinServer (games : List (String × Game)) (socketId : String)
    (serverID : String) (password : Option String) (hostName : Option String)
    (color : String) : List (String × Game) × Option String × List Emit :=
  match lookupKey games serverID with
  | none => (games, none, [Emit.senderFailed "Server not found."])
  | some game =>
    if jsTruthy game.password ∧ game.password ≠ password then
      (games, none, [Emit.senderFailed "Incorrect password."])
    else if game.settings.maxPlayers ≤ (keysOf game.players).length then
      (games, none, [Emit.senderFailed "Server is full."])
    else
      let playerID := socketId
      let playerCount := (keysOf game.players).length
      let playerName := jsOr hostName ("Player " ++ toString (playerCount + 1))
      let newPlayer : Player :=
        { id := playerID
          name := playerName
          color := color
          isReady := false
          resources :=
            { money := game.settings.startingMoney
              military := game.settings.startingMilitary
              production := 0
              research := 0 } }
      let game1 := { game with players := insertEntry game.players playerID newPlayer }
      let game2 :=
        if game1.gameState.currentTurnPlayerId = none then
          { game1 with gameState := { game1.gameState with
              currentTurnPlayerId := some playerID, gamePhase := "ACTIVE" } }
        else game1
      (setEntry games serverID game2, some serverID,
       [Emit.roomChat serverID (playerName ++ " has joined the game.") "system",
        Emit.senderEvent "initialState",
        Emit.roomState serverID])

/-- `disconnect` handler body (part_000): when the departing socket held the
turn, the synthetic `END_TURN` runs through `processAction` first; then the
player entry is removed, and the room is deleted when no players remain. -/
def handleDisconnect (games : List (String × Game)) (currentGameID : Option String)
    (socketId : String) (randIdx : Nat) : List (String × Game) × List Emit :=
  match currentGameID with
  | none => (games, [])
  | some gid =>
    match lookupKey games gid with
    | none => (games, [])
    | some game =>
      match lookupKey game.players socketId with
      | none => (games, [])
      | some player =>
        let r :=
          if game.gameState.currentTurnPlayerId = some socketId then
            processAction game socketId { type := "END_TURN", territoryId := none, targetId := none } randIdx
          else (game, [])
        let game2 := { r.1 with players := removeKey r.1.players socketId }
        let emits2 := r.2 ++ [Emit.roomChat gid (player.name ++ " has left the game.") "system"]
        if (keysOf game2.players).length = 0 then
          (removeKey games gid, emits2 ++ [Emit.logMsg ("Game room " ++ gid ++ " deleted.")])
        else
          (setEntry games gid game2, emits2 ++ [Emit.roomState gid])

/-- One public row of the `requestServerList` reply. -/
structure ServerSummary where
  id : String
  serverName : String
  hostName : String
  currentPlayers : Nat
  maxPlayers : Nat
  hasPassword : Bool
  gamePhase : String
  deriving Repr, DecidableEq

/-- One room's public summary row; the password itself is reduced to the
boolean `!!game.password`. -/
def summarize (game : Game) : ServerSummary :=
  { id := game.id
    serverName := game.serverName
    hostName := game.hostName
    currentPlayers := (keysOf game.players).length
    maxPlayers := game.settings.maxPlayers
    hasPassword := jsTruthy game.password
    gamePhase := game.gameState.gamePhase }

/-- `requestServerList` handler: the public summary of every registered
room, in registry order. -/
def requestServerList (games : List (String × Game)) : List ServerSummary :=
  (valuesOf games).map summarize

/-- Whole-server state: the `GAMES` registry and each socket's
`currentGameID` closure variable (absent key = still `null`). -/
structure SystemState where
  games : List (String × Game)
  currentGameOf : List (String × String)
  deriving Repr, DecidableEq

/-- One inbound transport event.  Random draws of the handlers are carried
as explicit parameters (`newID`, `prodRand`, `color`, `randIdx`). -/
inductive Event where
  | create (socketId newID : String) (data : CreateData) (prodRand : Nat → Nat)
  | join (socketId serverID : String) (password hostName : Option String) (color : String)
  | action (socketId : String) (a : Action) (randIdx : Nat)
  | requestList (socketId : String)
  | chat (socketId msg : String)
  | disconnect (socketId : String) (randIdx : Nat)

/-- One run-to-completion step of the event loop. -/
def step (s : SystemState) (e : Event) : SystemState × List Emit :=
  match e with
  | .create _ newID data prodRand =>
    let r := createServer s.games newID data prodRand
    ({ s with games := r.1 }, r.2)
  | .join socketId serverID password hostName color =>
    let r := joinServer s.games socketId serverID password hostName color
    ({ games := r.1
       currentGameOf :=
         match r.2.1 with
         | none => s.currentGameOf
         | some gid => insertEntry s.currentGameOf socketId gid }, r.2.2)
  | .action socketId a randIdx =>
    match lookupKey s.currentGameOf socketId with
    | none => (s, [])
    | some gid =>
      match lookupKey s.games gid with
      | none => (s, [])
      | some game =>
        let r := processAction game socketId a randIdx
        ({ s with games := setEntry s.games gid r.1 }, r.2)
  | .requestList _ => (s, [Emit.senderEvent "serverList"])
  | .chat socketId msg =>
    match lookupKey s.currentGameOf socketId with
    | none => (s, [])
    | some gid =>
      match lookupKey s.games gid with
      | none => (s, [])
      | some game =>
        match lookupKey game.players socketId with
        | none => (s, [])
        | some player =>
          (s, [Emit.roomChat gid (player.name ++ ": " ++ msg) "chat"])
  | .disconnect socketId randIdx =>
    let r := handleDisconnect s.games (lookupKey s.currentGameOf socketId) socketId randIdx
    ({ s with games := r.1 }, r.2)

/-- The freshly started server: no rooms, no socket in a room. -/
def initState : SystemState := { games := [], currentGameOf := [] }

/-- States reachable from server start by any event sequence. -/
inductive Reached : SystemState → Prop where
  | init : Reached initState
  | next (s : SystemState) (e : Event) : Reached s → Reached (step s e).1

end UMG

namespace SV

open UMG (lookupKey keysOf removeKey setEntry insertEntry Emit jsOr)

/-- One player of the reduced `src/server.js` variant. -/
structure SPlayer where
  id : String
  name : String
  score : Int
  isTurn : Bool
  deriving Repr, DecidableEq

/-- The `serverData` object of the reduced variant.  The constant `mapData`
placeholder object is omitted (never read or written). -/
structure ServerData where
  id : String
  serverName : String
  hostID : String
  hostName : String
  description : Option String
  maxPlayers : Nat
  currentPlayers : Int
  gameSpeed : String
  password : Option String
  turn : Nat
  deriving Repr, DecidableEq

/-- One game room of the reduced variant. -/
structure SGame where
  serverData : ServerData
  players : List (String × SPlayer)
  deriving Repr, DecidableEq

/-- The reduced variant's `disconnect` handler: removes the player, decrements
the player counter, deletes the room when the counter reaches zero, otherwise
reassigns the host to the first remaining player when the host left, and
broadcasts the updated state. -/
def svDisconnect (games : List (String × SGame)) (playerToServer : List (String × String))
    (playerID : String) :
    List (String × SGame) × List (String × String) × List Emit :=
  match lookupKey playerToServer playerID with
  | none => (games, playerToServer, [])
  | some serverID =>
    match lookupKey games serverID with
    | none => (games, playerToServer, [])
    | some game =>
      let playerName :=
        match lookupKey game.players playerID with
        | none => "A player"
        | some p => jsOr (some p.name) "A player"
      let players1 := removeKey game.players playerID
      let sd1 := { game.serverData with currentPlayers := game.serverData.currentPlayers - 1 }
      let pts1 := removeKey playerToServer playerID
      let emits0 := [Emit.roomChat serverID (playerName ++ " has left the game.") "system"]
      if sd1.currentPlayers = 0 then
        (removeKey games serverID, pts1,
         emits0 ++ [Emit.logMsg ("Server closed: " ++ serverID ++ " (last player left)")])
      else
        let r :=
          if sd1.hostID = playerID then
            match (keysOf players1).head? with
            | none => (sd1, ([] : List Emit))
            | some newHostID =>
              match lookupKey players1 newHostID with
              | none => (sd1, [Emit.crash])
              | some newHost =>
                ({ sd1 with hostID := newHostID, hostName := newHost.name },
                 [Emit.roomChat serverID (newHost.name ++ " is the new host.") "system"])
          else (sd1, ([] : List Emit))
        (setEntry games serverID { serverData := r.1, players := players1 }, pts1,
         emits0 ++ r.2 ++ [Emit.roomState serverID])

end SV

namespace UMG

/-- Per-room invariant: player keys are duplicate-free and the current turn
holder, when set, is one of them. -/
def roomInv (g : Game) : Prop :=
  (keysOf g.players).Nodup ∧
  ∀ pid, g.gameState.currentTurnPlayerId = some pid → pid ∈ keysOf g.players

/-- System invariant: every registered room satisfies `roomInv`. -/
def sysInv (s : SystemState) : Prop :=
  ∀ gid g, lookupKey s.games gid = some g → roomInv g

/-- Concrete fixture: an unowned territory. -/
def wTerr1 : Territory :=
  { id := "T-1"
    name := "Sector 1"
    ownerId := none
    militaryUnits := 0
    productionValue := 300 }

/-- Concrete fixture: a territory owned by player `P1`. -/
def wTerr2 : Territory :=
  { id := "T-2"
    name := "Sector 2"
    ownerId := some "P1"
    militaryUnits := 3
    productionValue := 200 }

/-- Concrete fixture settings. -/
def wSettings : Settings :=
  { gameSpeed := "Standard"
    mapSize := "small"
    maxPlayers := 8
    startingMoney := 5000
    startingMilitary := 20 }

/-- Concrete fixture player. -/
def wPlayer (n : String) (money production research : Int) : Player :=
  { id := n
    name := n
    color := "#abc"
    isReady := false
    resources := { money := money, military := 20, production := production, research := research } }

/-- Concrete fixture: a two-player `ACTIVE` room, `P1` holding the turn. -/
def wRoom : Game :=
  { id := "G1"
    serverName := "S"
    hostName := "H"
    password := none
    settings := wSettings
    players := [("P1", wPlayer "P1" 5000 200 50), ("P2", wPlayer "P2" 400 0 0)]
    gameState :=
      { gamePhase := "ACTIVE"
        currentTurn := 1
        currentTurnPlayerId := some "P1"
        territories := [("T-1", wTerr1), ("T-2", wTerr2)] } }

/-- Concrete fixture: `wRoom` protected by a password. -/
def wRoomPw : Game := { wRoom with password := some "hunter2" }

/-- Concrete fixture: `wRoom` already at its player limit. -/
def wRoomFull : Game := { wRoom with settings := { wSettings with maxPlayers := 2 } }

/-- Concrete fixture create request. -/
def wCreateData : CreateData :=
  { serverName := some "Room"
    hostName := some "Alice"
    password := none
    settings := wSettings }

/-- System state after one `createServer` on a fresh server. -/
def wState1 : SystemState :=
  (step initState (Event.create "S0" "R1" wCreateData (fun _ => 0))).1

/-- System state after `createServer` then one `joinServer` by socket `S1`. -/
def wState2 : SystemState :=
  (step wState1 (Event.join "S1" "R1" none (some "Alice") "#111")).1

/-- Fallback room used to extract registry entries in witnesses. -/
def wFallback : Game :=
  { id := ""
    serverName := ""
    hostName := ""
    password := none
    settings := wSettings
    players := []
    gameState :=
      { gamePhase := "LOBBY"
        currentTurn := 1
        currentTurnPlayerId := none
        territories := [] } }

/-- The room registered as `R1` in `wState1`. -/
def wCreatedRoom : Game := (lookupKey wState1.games "R1").getD wFallback

/-- The room registered as `R1` in `wState2`. -/
def wJoinedRoom : Game := (lookupKey wState2.games "R1").getD wFallback

end UMG

namespace SV

open UMG (lookupKey keysOf removeKey setEntry Emit)

/-- Concrete fixture player of the reduced variant. -/
def wSPlayer (n : String) (t : Bool) : SPlayer :=
  { id := n, name := n, score := 0, isTurn := t }

/-- The `serverData` after the disconnect handler's `currentPlayers--`. -/
def sdAfterLeave (g : SGame) : ServerData :=
  { g.serverData with currentPlayers := g.serverData.currentPlayers - 1 }

/-- Concrete fixture room of the reduced variant: two players, `A` hosting. -/
def wSGame : SGame :=
  { serverData :=
      { id := "R9"
        serverName := "Nine"
        hostID := "A"
        hostName := "A"
        description := none
        maxPlayers := 8
        currentPlayers := 2
        gameSpeed := "Normal"
        password := none
        turn := 1 }
    players := [("A", wSPlayer "A" true), ("B", wSPlayer "B" false)] }

end SV

namespace UMG

theorem setEntry_cons (a : String) (b : α) (rest : List (String × α)) (k : String) (v : α) :
    setEntry ((a, b) :: rest) k v =
      (if a = k then (k, v) else (a, b)) :: setEntry rest k v := by
  simp [setEntry]

theorem keysOf_setEntry (m : List (String × α)) (k : String) (v : α) :
    keysOf (setEntry m k v) = keysOf m := by
  induction m with
  | nil => rfl
  | cons p rest ih =>
    obtain ⟨a, b⟩ := p
    rw [setEntry_cons]
    by_cases h : a = k
    · rw [if_pos h]
      simp [keysOf] at ih ⊢
      exact ⟨h.symm, ih⟩
    · rw [if_neg h]
      simp [keysOf] at ih ⊢
      exact ih

theorem lookupKey_eq_none (m : List (String × α)) (k : String) :
    lookupKey m k = none ↔ k ∉ keysOf m := by
  induction m with
  | nil => simp [lookupKey, keysOf]
  | cons p rest ih =>
    obtain ⟨a, b⟩ := p
    by_cases h : a = k
    · simp [lookupKey, keysOf, h]
    · simp only [lookupKey, if_neg h]
      rw [ih]
      simp only [keysOf, List.map_cons, List.mem_cons]
      constructor
      · intro hn hmem
        rcases hmem with hmem | hmem
        · exact h hmem.symm
        · exact hn hmem
      · intro hn hmem
        exact hn (Or.inr hmem)

theorem lookupKey_isSome_of_mem (m : List (String × α)) (k : String)
    (h : k ∈ keysOf m) : ∃ v, lookupKey m k = some v := by
  rcases he : lookupKey m k with _ | v
  · exact absurd h ((lookupKey_eq_none m k).mp he)
  · exact ⟨v, rfl⟩

theorem mem_of_lookupKey (m : List (String × α)) (k : String) (v : α)
    (h : lookupKey m k = some v) : k ∈ keysOf m := by
  by_contra hk
  rw [(lookupKey_eq_none m k).mpr hk] at h
  exact Option.noConfusion h

theorem lookupKey_setEntry_other (m : List (String × α)) (k k' : String) (v : α)
    (h : k' ≠ k) : lookupKey (setEntry m k v) k' = lookupKey m k' := by
  induction m with
  | nil => rfl
  | cons p rest ih =>
    obtain ⟨a, b⟩ := p
    rw [setEntry_cons]
    by_cases hp : a = k
    · rw [if_pos hp]
      have h1 : ¬ k = k' := fun hk => h hk.symm
      have h2 : ¬ a = k' := by rw [hp]; exact h1
      simp [lookupKey, h1, h2, ih]
    · rw [if_neg hp]
      by_cases hq : a = k' <;> simp [lookupKey, hq, ih]

theorem lookupKey_setEntry_self (m : List (String × α)) (k : String) (v : α)
    (h : k ∈ keysOf m) : lookupKey (setEntry m k v) k = some v := by
  induction m with
  | nil => simp [keysOf] at h
  | cons p rest ih =>
    obtain ⟨a, b⟩ := p
    rw [setEntry_cons]
    by_cases hp : a = k
    · rw [if_pos hp]; simp [lookupKey]
    · rw [if_neg hp]
      simp only [keysOf, List.map_cons, List.mem_cons] at h
      rcases h with h | h
      · exact (hp h.symm).elim
      · simp [lookupKey, hp, ih h, keysOf]

theorem removeKey_cons (a : String) (b : α) (rest : List (String × α)) (k : String) :
    removeKey ((a, b) :: rest) k =
      if a = k then removeKey rest k else (a, b) :: removeKey rest k := by
  by_cases h : a = k <;> simp [removeKey, h]

theorem lookupKey_removeKey_self (m : List (String × α)) (k : String) :
    lookupKey (removeKey m k) k = none := by
  induction m with
  | nil => rfl
  | cons p rest ih =>
    obtain ⟨a, b⟩ := p
    rw [removeKey_cons]
    by_cases hp : a = k
    · rw [if_pos hp]; exact ih
    · rw [if_neg hp]; simp [lookupKey, hp, ih]

theorem lookupKey_removeKey_other (m : List (String × α)) (k k' : String)
    (h : k' ≠ k) : lookupKey (removeKey m k) k' = lookupKey m k' := by
  induction m with
  | nil => rfl
  | cons p rest ih =>
    obtain ⟨a, b⟩ := p
    rw [removeKey_cons]
    by_cases hp : a = k
    · rw [if_pos hp]
      have h2 : ¬ a = k' := by rw [hp]; exact fun hk => h hk.symm
      simp [lookupKey, h2, ih]
    · rw [if_neg hp]
      by_cases hq : a = k' <;> simp [lookupKey, hq, ih]

theorem keysOf_removeKey (m : List (String × α)) (k : String) :
    keysOf (removeKey m k) = (keysOf m).filter (fun x => ¬ x = k) := by
  induction m with
  | nil => rfl
  | cons p rest ih =>
    obtain ⟨a, b⟩ := p
    rw [removeKey_cons]
    by_cases hp : a = k
    · rw [if_pos hp]
      simp [keysOf, List.filter_cons, hp] at ih ⊢
      exact ih
    · rw [if_neg hp]
      simp [keysOf, List.filter_cons, hp] at ih ⊢
      exact ih

theorem any_key_iff (m : List (String × α)) (k : String) :
    (m.any fun p => p.1 = k) = true ↔ k ∈ keysOf m := by
  simp only [List.any_eq_true, keysOf, List.mem_map, decide_eq_true_eq]

theorem keysOf_insertEntry (m : List (String × α)) (k : String) (v : α) :
    keysOf (insertEntry m k v) = if k ∈ keysOf m then keysOf m else keysOf m ++ [k] := by
  unfold insertEntry
  by_cases h : k ∈ keysOf m
  · rw [if_pos ((any_key_iff m k).mpr h), if_pos h]
    exact keysOf_setEntry m k v
  · rw [if_neg (fun hc => h ((any_key_iff m k).mp hc)), if_neg h]
    simp [keysOf]

theorem nodup_keysOf_insertEntry (m : List (String × α)) (k : String) (v : α)
    (h : (keysOf m).Nodup) : (keysOf (insertEntry m k v)).Nodup := by
  rw [keysOf_insertEntry]
  by_cases hk : k ∈ keysOf m
  · simpa [hk]
  · rw [if_neg hk, List.nodup_append]
    refine ⟨h, List.nodup_singleton k, ?_⟩
    intro x hx hxk
    simp only [List.mem_singleton] at hxk
    subst hxk
    exact hk hx

theorem mem_keysOf_insertEntry_self (m : List (String × α)) (k : String) (v : α) :
    k ∈ keysOf (insertEntry m k v) := by
  rw [keysOf_insertEntry]
  by_cases hk : k ∈ keysOf m <;> simp [hk]

theorem mem_keysOf_insertEntry_of_mem (m : List (String × α)) (k k' : String) (v : α)
    (h : k' ∈ keysOf m) : k' ∈ keysOf (insertEntry m k v) := by
  rw [keysOf_insertEntry]
  by_cases hk : k ∈ keysOf m <;> simp [hk, h]

theorem lookupKey_append_single (m : List (String × α)) (k k' : String) (v : α)
    (h : k' ≠ k) : lookupKey (m ++ [(k, v)]) k' = lookupKey m k' := by
  induction m with
  | nil =>
    simp only [List.nil_append, lookupKey]
    rw [if_neg (fun hk => h hk.symm)]
  | cons p rest ih =>
    obtain ⟨a, b⟩ := p
    by_cases hq : a = k'
    · simp [lookupKey, hq]
    · simp only [List.cons_append, lookupKey, if_neg hq]
      exact ih

theorem lookupKey_insertEntry_other (m : List (String × α)) (k k' : String) (v : α)
    (h : k' ≠ k) : lookupKey (insertEntry m k v) k' = lookupKey m k' := by
  unfold insertEntry
  by_cases hc : (m.any fun p => p.1 = k) = true
  · rw [if_pos hc]; exact lookupKey_setEntry_other m k k' v h
  · rw [if_neg hc]; exact lookupKey_append_single m k k' v h

theorem jsIndexOf_spec (l : List String) (x : String) (h : x ∈ l) :
    0 ≤ jsIndexOf l x ∧ (jsIndexOf l x).toNat < l.length ∧
      l.get? (jsIndexOf l x).toNat = some x := by
  induction l with
  | nil => simp at h
  | cons y ys ih =>
    by_cases hy : y = x
    · refine ⟨by simp [jsIndexOf, hy], ?_, ?_⟩
      · simp [jsIndexOf, hy]
      · simp [jsIndexOf, hy]
    · have hx : x ∈ ys := by
        rcases List.mem_cons.mp h with h' | h'
        · exact (hy h'.symm).elim
        · exact h'
      obtain ⟨h1, h2, h3⟩ := ih hx
      have hne : jsIndexOf ys x ≠ -1 := by
        intro hc
        rw [hc] at h1
        norm_num at h1
      have hval : jsIndexOf (y :: ys) x = jsIndexOf ys x + 1 := by
        simp only [jsIndexOf, if_neg hy]
        rw [if_neg hne]
      rw [hval]
      have htn : (jsIndexOf ys x + 1).toNat = (jsIndexOf ys x).toNat + 1 := by omega
      refine ⟨by omega, ?_, ?_⟩
      · rw [htn]
        simpa using Nat.succ_lt_succ h2
      · rw [htn]
        simpa using h3

theorem nodup_get?_ne (l : List String) (hnd : l.Nodup) (i j : Nat)
    (hi : i < l.length) (hij : i ≠ j) (a b : String)
    (ha : l.get? i = some a) (hb : l.get? j = some b) : a ≠ b := by
  intro hab
  subst hab
  exact hij (List.get?_inj hi hnd (ha.trans hb.symm))

/-- The game state is untouched by the turn-end income pass. -/
theorem applyTurnEndEffects_gameState (game : Game) :
    (applyTurnEndEffects game).gameState = game.gameState := rfl

theorem applyTurnEndEffects_keys (game : Game) :
    keysOf (applyTurnEndEffects game).players = keysOf game.players := by
  simp [applyTurnEndEffects, keysOf, List.map_map, Function.comp]

theorem applyTurnEndEffects_id (game : Game) :
    (applyTurnEndEffects game).id = game.id := rfl

/-- `getNextPlayerId` on a room with a holder among the keys: the key right
after the holder, cyclically. -/
theorem getNextPlayerId_of_holder (game : Game) (pid : String)
    (hhold : game.gameState.currentTurnPlayerId = some pid)
    (hmem : pid ∈ keysOf game.players) :
    getNextPlayerId game =
      (keysOf game.players).get?
        (((jsIndexOf (keysOf game.players) pid + 1) %
          ((keysOf game.players).length : Int)).toNat) := by
  have hlen : (keysOf game.players).length ≠ 0 := by
    intro hc
    rw [List.length_eq_zero] at hc
    rw [hc] at hmem
    simp at hmem
  unfold getNextPlayerId
  rw [hhold]
  simp only [if_neg hlen]

/-- Whatever `getNextPlayerId` returns is a key of the player mapping. -/
theorem getNextPlayerId_mem (game : Game) (q : String)
    (h : getNextPlayerId game = some q) : q ∈ keysOf game.players := by
  unfold getNextPlayerId at h
  by_cases hlen : (keysOf game.players).length = 0
  · rw [if_pos hlen] at h
    exact Option.noConfusion h
  · rw [if_neg hlen] at h
    rcases hc : game.gameState.currentTurnPlayerId with _ | cur
    · rw [hc] at h
      simp only at h
      exact List.mem_of_mem_head? (by simp [Option.mem_def, h])
    · rw [hc] at h
      simp only at h
      exact List.get?_mem h

/-- Shorthand for the synthetic / plain END_TURN action object. -/
theorem endTurn_type_check : ("END_TURN" : String) ≠ "DISCONNECT" := by decide

theorem processAction_endTurn_players (game : Game) (pid : String) (r : Nat)
    (hhold : game.gameState.currentTurnPlayerId = some pid) :
    (processAction game pid { type := "END_TURN", territoryId := none, targetId := none } r).1.players
      = (applyTurnEndEffects game).players := by
  unfold processAction
  simp only [hhold]
  norm_num
  cases h : lookupKey game.players pid <;> simp <;> split <;> rfl

theorem processAction_endTurn_holder (game : Game) (pid : String) (r : Nat)
    (hhold : game.gameState.currentTurnPlayerId = some pid) :
    (processAction game pid { type := "END_TURN", territoryId := none, targetId := none } r).1.gameState.currentTurnPlayerId
      = getNextPlayerId (applyTurnEndEffects game) := by
  unfold processAction
  simp only [hhold]
  norm_num
  cases h : lookupKey game.players pid <;> simp <;> split <;> rfl

theorem processAction_endTurn_phase (game : Game) (pid : String) (r : Nat)
    (hhold : game.gameState.currentTurnPlayerId = some pid) :
    (processAction game pid { type := "END_TURN", territoryId := none, targetId := none } r).1.gameState.gamePhase
      = game.gameState.gamePhase := by
  unfold processAction
  simp only [hhold]
  norm_num
  cases h : lookupKey game.players pid <;> simp <;> split <;> rfl

theorem processAction_endTurn_territories (game : Game) (pid : String) (r : Nat)
    (hhold : game.gameState.currentTurnPlayerId = some pid) :
    (processAction game pid { type := "END_TURN", territoryId := none, targetId := none } r).1.gameState.territories
      = game.gameState.territories := by
  unfold processAction
  simp only [hhold]
  norm_num
  cases h : lookupKey game.players pid <;> simp <;> split <;> rfl

theorem processAction_endTurn_turn (game : Game) (pid : String) (r : Nat)
    (hhold : game.gameState.currentTurnPlayerId = some pid)
    (hmem : pid ∈ keysOf game.players) :
    (processAction game pid { type := "END_TURN", territoryId := none, targetId := none } r).1.gameState.currentTurn
      = (if getNextPlayerId (applyTurnEndEffects game) = (keysOf game.players).head?
            ∧ game.gameState.gamePhase = "ACTIVE"
         then game.gameState.currentTurn + 1
         else game.gameState.currentTurn) := by
  have hkeys1 : keysOf (applyTurnEndEffects game).players = keysOf game.players :=
    applyTurnEndEffects_keys game
  have hlen : 0 < (keysOf game.players).length := List.length_pos.mpr
    (by intro hc; rw [hc] at hmem; simp at hmem)
  have hnext : getNextPlayerId (applyTurnEndEffects game) =
      (keysOf game.players).get?
        (((jsIndexOf (keysOf game.players) pid + 1) %
          ((keysOf game.players).length : Int)).toNat) := by
    rw [getNextPlayerId_of_holder (applyTurnEndEffects game) pid hhold (by rw [hkeys1]; exact hmem)]
    rw [hkeys1]
  have hidx : (((jsIndexOf (keysOf game.players) pid + 1) %
      ((keysOf game.players).length : Int)).toNat) < (keysOf game.players).length := by
    obtain ⟨h1, _, _⟩ := jsIndexOf_spec (keysOf game.players) pid hmem
    have hlz : (0 : Int) < ((keysOf game.players).length : Int) := by exact_mod_cast hlen
    have hnn : 0 ≤ (jsIndexOf (keysOf game.players) pid + 1) %
        ((keysOf game.players).length : Int) :=
      Int.emod_nonneg _ (by omega)
    have hlt : (jsIndexOf (keysOf game.players) pid + 1) %
        ((keysOf game.players).length : Int) < ((keysOf game.players).length : Int) :=
      Int.emod_lt_of_pos _ hlz
    omega
  obtain ⟨n, hn⟩ : ∃ n, getNextPlayerId (applyTurnEndEffects game) = some n := by
    rw [hnext]
    exact ⟨_, List.get?_eq_get hidx⟩
  obtain ⟨f, hf⟩ : ∃ f, (keysOf game.players).head? = some f := by
    cases hk : keysOf game.players with
    | nil => rw [hk] at hlen; simp at hlen
    | cons a l => exact ⟨a, by simp⟩
  unfold processAction
  simp only [hhold]
  norm_num
  cases h : lookupKey game.players pid <;>
    simp only [] <;>
    · simp only [applyTurnEndEffects_keys, hf, hn]
      by_cases hnf : n = f <;> by_cases hph : game.gameState.gamePhase = "ACTIVE" <;>
        simp [applyTurnEndEffects_gameState, hnf, hph]

theorem lookupKey_append_single_self (m : List (String × α)) (k : String) (v : α)
    (h : k ∉ keysOf m) : lookupKey (m ++ [(k, v)]) k = some v := by
  induction m with
  | nil => simp [lookupKey]
  | cons p rest ih =>
    obtain ⟨a, b⟩ := p
    have hak : ¬ a = k := by
      intro hc
      exact h (by simp [keysOf, hc])
    have hrest : k ∉ keysOf rest :=
      fun hc => h (by simp only [keysOf, List.map_cons, List.mem_cons]; exact Or.inr hc)
    simp only [List.cons_append, lookupKey, if_neg hak]
    exact ih hrest

theorem lookupKey_insertEntry_self (m : List (String × α)) (k : String) (v : α) :
    lookupKey (insertEntry m k v) k = some v := by
  unfold insertEntry
  by_cases hc : (m.any fun p => p.1 = k) = true
  · rw [if_pos hc]
    exact lookupKey_setEntry_self m k v ((any_key_iff m k).mp hc)
  · rw [if_neg hc]
    exact lookupKey_append_single_self m k v (fun hm => hc ((any_key_iff m k).mpr hm))

theorem processAction_shape (g : Game) (pid : String) (a : Action) (r : Nat) :
    keysOf (processAction g pid a r).1.players = keysOf g.players
    ∧ ((processAction g pid a r).1.gameState.currentTurnPlayerId
          = g.gameState.currentTurnPlayerId
       ∨ (processAction g pid a r).1.gameState.currentTurnPlayerId
          = getNextPlayerId (applyTurnEndEffects g)) := by
  unfold processAction
  by_cases h0 : g.gameState.currentTurnPlayerId ≠ some pid ∧ a.type ≠ "DISCONNECT"
  · rw [if_pos h0]
    exact ⟨rfl, Or.inl rfl⟩
  rw [if_neg h0]
  by_cases h1 : a.type = "CLAIM_TERRITORY"
  · rw [if_pos h1]
    rcases hb : a.territoryId.bind (lookupKey g.gameState.territories) with _ | terr
    · simp [hb]
    · simp only [hb]
      by_cases h2 : terr.ownerId ≠ none
      · rw [if_pos h2]
        exact ⟨rfl, Or.inl rfl⟩
      rw [if_neg h2]
      rcases hp : lookupKey g.players pid with _ | player
      · simp [hp]
      simp only [hp]
      by_cases h3 : player.resources.money < BASE_CLAIM_COST
      · rw [if_pos h3]
        exact ⟨rfl, Or.inl rfl⟩
      rw [if_neg h3]
      exact ⟨keysOf_setEntry g.players pid _, Or.inl rfl⟩
  rw [if_neg h1]
  by_cases h2 : a.type = "ATTACK_TERRITORY"
  · rw [if_pos h2]
    rcases hp : lookupKey g.players pid with _ | player <;> simp [hp]
  rw [if_neg h2]
  by_cases h3 : a.type = "EXPAND_LAND"
  · rw [if_pos h3]
    by_cases he : ((valuesOf g.gameState.territories).filter (fun t => t.ownerId = none)).length = 0
    · rw [if_pos he]
      exact ⟨rfl, Or.inl rfl⟩
    rw [if_neg he]
    rcases ht : ((valuesOf g.gameState.territories).filter (fun t => t.ownerId = none)).get?
        (r % ((valuesOf g.gameState.territories).filter (fun t => t.ownerId = none)).length)
      with _ | target
    · simp [ht]
    simp only [ht]
    rcases hp : lookupKey g.players pid with _ | player
    · simp [hp]
    simp only [hp]
    by_cases hm : player.resources.money < BASE_CLAIM_COST
    · rw [if_pos hm]
      exact ⟨rfl, Or.inl rfl⟩
    rw [if_neg hm]
    exact ⟨keysOf_setEntry g.players pid _, Or.inl rfl⟩
  rw [if_neg h3]
  by_cases h4 : a.type = "BUILD_UNIT"
  · rw [if_pos h4]
    by_cases he : ((valuesOf g.gameState.territories).filter (fun t => t.ownerId = some pid)).length = 0
    · rw [if_pos he]
      exact ⟨rfl, Or.inl rfl⟩
    rw [if_neg he]
    rcases hp : lookupKey g.players pid with _ | player
    · simp [hp]
    simp only [hp]
    by_cases hm : player.resources.money < UNIT_COST
    · rw [if_pos hm]
      exact ⟨rfl, Or.inl rfl⟩
    rw [if_neg hm]
    rcases ht : ((valuesOf g.gameState.territories).filter (fun t => t.ownerId = some pid)).get?
        (r % ((valuesOf g.gameState.territories).filter (fun t => t.ownerId = some pid)).length)
      with _ | target
    · simp [ht]
    simp only [ht]
    refine ⟨keysOf_setEntry g.players pid _, ?_⟩
    simp
  rw [if_neg h4]
  by_cases h5 : a.type = "PROPOSE_TRUCE"
  · rw [if_pos h5]
    rcases hb : a.targetId.bind (lookupKey g.players) with _ | target
    · simp [hb]
    simp only [hb]
    rcases hp : lookupKey g.players pid with _ | player <;> simp [hp]
  rw [if_neg h5]
  by_cases h6 : a.type = "RESEARCH" ∨ a.type = "CREATE_BUILDING" ∨
      a.type = "UPGRADE_TERRITORY" ∨ a.type = "START_TASK" ∨
      a.type = "PROPOSE_ALLY" ∨ a.type = "PROPOSE_TRADE"
  · rw [if_pos h6]
    exact ⟨rfl, Or.inl rfl⟩
  rw [if_neg h6]
  by_cases h7 : a.type = "END_TURN"
  · rw [if_pos h7]
    have hite : ∀ (c : Prop) (inst : Decidable c) (A B : Game),
        A.players = (applyTurnEndEffects g).players →
        B.players = (applyTurnEndEffects g).players →
        keysOf (@ite Game c inst A B).players = keysOf g.players := by
      intro c inst A B hA hB
      rcases inst with h | h
      · show keysOf B.players = keysOf g.players
        rw [hB]
        exact applyTurnEndEffects_keys g
      · show keysOf A.players = keysOf g.players
        rw [hA]
        exact applyTurnEndEffects_keys g
    rcases hp : lookupKey g.players pid with _ | player
    all_goals
      simp only [hp]
      refine ⟨hite _ _ _ _ rfl rfl, ?_⟩
      simp
  rw [if_neg h7]
  exact ⟨rfl, Or.inl rfl⟩


theorem processAction_roomInv (g : Game) (pid : String) (a : Action) (r : Nat)
    (h : roomInv g) : roomInv (processAction g pid a r).1 := by
  obtain ⟨hnd, hhm⟩ := h
  obtain ⟨hkeys, hhold⟩ := processAction_shape g pid a r
  constructor
  · rw [hkeys]; exact hnd
  · intro q hq
    rw [hkeys]
    rcases hhold with he | he
    · exact hhm q (he.symm.trans hq)
    · rw [he] at hq
      have hm := getNextPlayerId_mem (applyTurnEndEffects g) q hq
      rwa [applyTurnEndEffects_keys] at hm

theorem joinServer_games_inv (games : List (String × Game)) (sock sid : String)
    (pw nm : Option String) (color : String)
    (h : ∀ gid g, lookupKey games gid = some g → roomInv g) :
    ∀ gid g, lookupKey (joinServer games sock sid pw nm color).1 gid = some g → roomInv g := by
  unfold joinServer
  rcases hl : lookupKey games sid with _ | game
  · simp only [hl]; exact h
  simp only [hl]
  by_cases hpw : jsTruthy game.password ∧ game.password ≠ pw
  · rw [if_pos hpw]; exact h
  rw [if_neg hpw]
  by_cases hfull : game.settings.maxPlayers ≤ (keysOf game.players).length
  · rw [if_pos hfull]; exact h
  rw [if_neg hfull]
  intro gid g hg
  by_cases hgid : gid = sid
  · subst hgid
    rw [lookupKey_setEntry_self _ _ _ (mem_of_lookupKey games gid game hl)] at hg
    obtain ⟨hnd, hhm⟩ := h gid game hl
    rw [← Option.some.inj hg]
    split
    · constructor
      · exact nodup_keysOf_insertEntry _ _ _ hnd
      · intro q hq
        have : some sock = some q := hq
        rw [← Option.some.inj this]
        exact mem_keysOf_insertEntry_self _ _ _
    · constructor
      · exact nodup_keysOf_insertEntry _ _ _ hnd
      · intro q hq
        exact mem_keysOf_insertEntry_of_mem _ _ _ _ (hhm q hq)
  · rw [lookupKey_setEntry_other _ _ _ _ hgid] at hg
    exact h gid g hg

theorem disconnect_core (game g1 : Game) (sock : String) (r : Nat)
    (hinv : roomInv game) (hsock : sock ∈ keysOf game.players)
    (hg1 : g1 = (if game.gameState.currentTurnPlayerId = some sock
        then processAction game sock
          { type := "END_TURN", territoryId := none, targetId := none } r
        else (game, ([] : List Emit))).1)
    (hne : ¬ (keysOf (removeKey g1.players sock)).length = 0) :
    roomInv { g1 with players := removeKey g1.players sock } := by
  obtain ⟨hnd, hhm⟩ := hinv
  have hkeys1 : keysOf g1.players = keysOf game.players := by
    by_cases hc : game.gameState.currentTurnPlayerId = some sock
    · rw [hg1, if_pos hc]
      exact (processAction_shape game sock _ r).1
    · rw [hg1, if_neg hc]
  have hkeys2 : keysOf (removeKey g1.players sock)
      = (keysOf game.players).filter (fun x => ¬ x = sock) := by
    rw [keysOf_removeKey, hkeys1]
  constructor
  · rw [hkeys2]
    exact List.Nodup.filter _ hnd
  · intro q hq
    have hq1 : g1.gameState.currentTurnPlayerId = some q := hq
    have hmemne : q ∈ keysOf game.players ∧ ¬ q = sock → q ∈ keysOf (removeKey g1.players sock) := by
      intro ⟨hm, hn⟩
      rw [hkeys2]
      rw [List.mem_filter]
      exact ⟨hm, by simpa using hn⟩
    by_cases hc : game.gameState.currentTurnPlayerId = some sock
    · -- the synthetic END_TURN ran; the new holder is the next key
      rw [hg1, if_pos hc] at hq1
      rw [processAction_endTurn_holder game sock r hc] at hq1
      have hmem1 : sock ∈ keysOf (applyTurnEndEffects game).players := by
        rw [applyTurnEndEffects_keys]; exact hsock
      rw [getNextPlayerId_of_holder (applyTurnEndEffects game) sock hc hmem1,
        applyTurnEndEffects_keys] at hq1
      obtain ⟨hI0, hIlt, hIget⟩ := jsIndexOf_spec (keysOf game.players) sock hsock
      have hlenpos : 0 < (keysOf game.players).length := Nat.pos_of_ne_zero (by
        intro hz
        rw [List.length_eq_zero] at hz
        rw [hz] at hsock
        simp at hsock)
      by_cases hlen1 : (keysOf game.players).length = 1
      · -- a one-player room: removal empties it, contradicting `hne`
        exfalso
        apply hne
        have hkeq : keysOf game.players = [sock] := by
          rcases hk : keysOf game.players with _ | ⟨a, t⟩
          · rw [hk] at hlenpos; simp at hlenpos
          · rcases ht : t with _ | ⟨b, u⟩
            · rw [hk, ht] at hsock
              simp at hsock
              rw [hsock]
            · rw [hk, ht] at hlen1
              simp at hlen1
        rw [hkeys2, hkeq]
        simp
      · have hlen2 : 2 ≤ (keysOf game.players).length := by omega
        set len := (keysOf game.players).length with hlendef
        set I := jsIndexOf (keysOf game.players) sock with hIdef
        have hlz : (0 : Int) < (len : Int) := by exact_mod_cast hlenpos
        have hIltZ : I < (len : Int) := by
          omega
        have hidx2lt : ((I + 1) % (len : Int)).toNat < len := by
          have h1 : 0 ≤ (I + 1) % (len : Int) := Int.emod_nonneg _ (by omega)
          have h2 : (I + 1) % (len : Int) < (len : Int) := Int.emod_lt_of_pos _ hlz
          omega
        have hne_idx : ((I + 1) % (len : Int)).toNat ≠ I.toNat := by
          rcases lt_or_eq_of_le (by omega : I + 1 ≤ (len : Int)) with hlt | heq
          · rw [Int.emod_eq_of_lt (by omega) hlt]
            omega
          · rw [heq, Int.emod_self]
            omega
        have hq2 : (keysOf game.players).get? ((I + 1) % (len : Int)).toNat = some q := hq1
        have hqne : q ≠ sock :=
          nodup_get?_ne (keysOf game.players) hnd _ _ hidx2lt hne_idx q sock hq2 hIget
        exact hmemne ⟨List.get?_mem hq2, hqne⟩
    · -- a non-holder left; the holder is unchanged and survives the removal
      rw [hg1, if_neg hc] at hq1
      refine hmemne ⟨hhm q hq1, ?_⟩
      intro hqs
      rw [hqs] at hq1
      exact hc hq1

theorem handleDisconnect_inv (games : List (String × Game)) (cur : Option String)
    (sock : String) (r : Nat)
    (h : ∀ gid g, lookupKey games gid = some g → roomInv g) :
    ∀ gid g, lookupKey (handleDisconnect games cur sock r).1 gid = some g → roomInv g := by
  unfold handleDisconnect
  rcases cur with _ | gid0
  · exact h
  rcases hl : lookupKey games gid0 with _ | game
  · simp only [hl]; exact h
  simp only [hl]
  rcases hp : lookupKey game.players sock with _ | player
  · simp only [hp]; exact h
  simp only [hp]
  generalize hG1 : (if game.gameState.currentTurnPlayerId = some sock
      then processAction game sock
        { type := "END_TURN", territoryId := none, targetId := none } r
      else (game, ([] : List Emit))) = R
  split
  · intro gid g hg
    by_cases hgid : gid = gid0
    · subst hgid
      rw [lookupKey_removeKey_self] at hg
      exact Option.noConfusion hg
    · rw [lookupKey_removeKey_other _ _ _ hgid] at hg
      exact h gid g hg
  · rename_i hlen
    intro gid g hg
    by_cases hgid : gid = gid0
    · subst hgid
      rw [lookupKey_setEntry_self _ _ _ (mem_of_lookupKey games gid game hl)] at hg
      rw [← Option.some.inj hg]
      exact disconnect_core game R.1 sock r (h gid game hl)
        (mem_of_lookupKey _ _ _ hp) (by rw [hG1]) hlen
    · rw [lookupKey_setEntry_other _ _ _ _ hgid] at hg
      exact h gid g hg

theorem step_sysInv (s : SystemState) (e : Event) (h : sysInv s) : sysInv (step s e).1 := by
  cases e with
  | create sock newID data prodRand =>
    intro gid g hg
    unfold step createServer at hg
    by_cases hid : gid = newID
    · subst hid
      rw [lookupKey_insertEntry_self] at hg
      rw [← Option.some.inj hg]
      constructor
      · simp [keysOf]
      · intro pid hp
        exact Option.noConfusion hp
    · rw [lookupKey_insertEntry_other _ _ _ _ hid] at hg
      exact h gid g hg
  | join sock sid pw nm color =>
    intro gid g hg
    unfold step at hg
    dsimp only at hg
    exact joinServer_games_inv s.games sock sid pw nm color h gid g hg
  | action sock a r =>
    intro gid g hg
    unfold step at hg
    rcases hc : lookupKey s.currentGameOf sock with _ | gid0 <;> simp only [hc] at hg
    · exact h gid g hg
    rcases hl : lookupKey s.games gid0 with _ | game <;> simp only [hl] at hg
    · exact h gid g hg
    by_cases hgid : gid = gid0
    · subst hgid
      rw [lookupKey_setEntry_self _ _ _ (mem_of_lookupKey _ _ _ hl)] at hg
      rw [← Option.some.inj hg]
      exact processAction_roomInv game sock a r (h gid game hl)
    · rw [lookupKey_setEntry_other _ _ _ _ hgid] at hg
      exact h gid g hg
  | requestList sock =>
    intro gid g hg
    exact h gid g hg
  | chat sock msg =>
    intro gid g hg
    unfold step at hg
    rcases hc : lookupKey s.currentGameOf sock with _ | gid0 <;> simp only [hc] at hg
    · exact h gid g hg
    rcases hl : lookupKey s.games gid0 with _ | game <;> simp only [hl] at hg
    · exact h gid g hg
    rcases hp : lookupKey game.players sock with _ | player <;> simp only [hp] at hg
    · exact h gid g hg
    · exact h gid g hg
  | disconnect sock r =>
    intro gid g hg
    unfold step at hg
    dsimp only at hg
    exact handleDisconnect_inv s.games (lookupKey s.currentGameOf sock) sock r h gid g hg

theorem reached_sysInv (s : SystemState) (h : Reached s) : sysInv s := by
  induction h with
  | init =>
    intro gid g hg
    exact Option.noConfusion hg
  | next s' e hs ih => exact step_sysInv s' e ih

/-- C3: in every reachable server state, every registered room whose current
turn holder is set has that holder among the keys of its player mapping —
the disconnect path runs the synthetic `END_TURN` before removing the
departing holder, so the turn pointer never dangles on a removed player. -/
theorem claim3_holder_is_registered_player (s : SystemState) (hs : Reached s)
    (gid : String) (g : Game) (hg : lookupKey s.games gid = some g)
    (pid : String) (hp : g.gameState.currentTurnPlayerId = some pid) :
    pid ∈ keysOf g.players :=
  (reached_sysInv s hs gid g hg).2 pid hp

/-- C3 witness: the concrete reachable state built by one create and one
join; the sole joiner holds the turn and is a key of the player mapping. -/
theorem claim3_witness : "S1" ∈ keysOf wJoinedRoom.players :=
  claim3_holder_is_registered_player wState2
    (Reached.next wState1 (Event.join "S1" "R1" none (some "Alice") "#111")
      (Reached.next initState (Event.create "S0" "R1" wCreateData (fun _ => 0)) Reached.init))
    "R1" wJoinedRoom rfl "S1" rfl

/-- C1: `END_TURN` issued by the current-turn holder of a room with at least
one player moves the holder to the key immediately following it in the fixed
`Object.keys` ordering (wrapping cyclically), and the room's turn counter
increments by exactly 1 iff that computed next key is the first key of the
ordering and the phase is `ACTIVE`; in every other case the counter is
unchanged. -/
theorem claim1_endTurn_rotation_and_counter (game : Game) (pid : String) (randIdx : Nat)
    (hhold : game.gameState.currentTurnPlayerId = some pid)
    (hmem : pid ∈ keysOf game.players) :
    (processAction game pid { type := "END_TURN", territoryId := none, targetId := none } randIdx).1.gameState.currentTurnPlayerId
      = (keysOf game.players).get?
          (((jsIndexOf (keysOf game.players) pid + 1) %
            ((keysOf game.players).length : Int)).toNat)
    ∧
    (processAction game pid { type := "END_TURN", territoryId := none, targetId := none } randIdx).1.gameState.currentTurn
      = (if (keysOf game.players).get?
              (((jsIndexOf (keysOf game.players) pid + 1) %
                ((keysOf game.players).length : Int)).toNat)
            = (keysOf game.players).head? ∧ game.gameState.gamePhase = "ACTIVE"
         then game.gameState.currentTurn + 1
         else game.gameState.currentTurn) := by
  have hkeys1 := applyTurnEndEffects_keys game
  have hnext : getNextPlayerId (applyTurnEndEffects game) =
      (keysOf game.players).get?
        (((jsIndexOf (keysOf game.players) pid + 1) %
          ((keysOf game.players).length : Int)).toNat) := by
    rw [getNextPlayerId_of_holder (applyTurnEndEffects game) pid hhold
      (by rw [hkeys1]; exact hmem), hkeys1]
  constructor
  · rw [processAction_endTurn_holder game pid randIdx hhold, hnext]
  · rw [processAction_endTurn_turn game pid randIdx hhold hmem, hnext]

/-- C1 witness: the theorem applied to the two-player fixture room. -/
theorem claim1_witness :
    (processAction wRoom "P1" { type := "END_TURN", territoryId := none, targetId := none } 0).1.gameState.currentTurnPlayerId
      = (keysOf wRoom.players).get?
          (((jsIndexOf (keysOf wRoom.players) "P1" + 1) %
            ((keysOf wRoom.players).length : Int)).toNat)
    ∧
    (processAction wRoom "P1" { type := "END_TURN", territoryId := none, targetId := none } 0).1.gameState.currentTurn
      = (if (keysOf wRoom.players).get?
              (((jsIndexOf (keysOf wRoom.players) "P1" + 1) %
                ((keysOf wRoom.players).length : Int)).toNat)
            = (keysOf wRoom.players).head? ∧ wRoom.gameState.gamePhase = "ACTIVE"
         then wRoom.gameState.currentTurn + 1
         else wRoom.gameState.currentTurn) :=
  claim1_endTurn_rotation_and_counter wRoom "P1" 0 rfl (by decide)

/-- C2 counterexample: an action of type `DISCONNECT` submitted by a player
who does not hold the turn bypasses the turn-ownership check and reaches the
room-wide `stateUpdate` broadcast, refuting "no room-wide broadcast of any
kind occurs" for non-holder actions. -/
theorem claim2_counterexample :
    wRoom.gameState.currentTurnPlayerId ≠ some "P2"
    ∧ (processAction wRoom "P2" { type := "DISCONNECT", territoryId := none, targetId := none } 0).2
        = [Emit.logMsg "Unknown action type: DISCONNECT", Emit.roomState "G1"]
    ∧ Emit.roomState "G1"
        ∈ (processAction wRoom "P2" { type := "DISCONNECT", territoryId := none, targetId := none } 0).2 := by
  refine ⟨by decide, by decide, by decide⟩

/-- C2 (amended): an action from a player who is not the current-turn holder
leaves the room (players and territories included) completely unchanged; when
its type is not the literal `DISCONNECT` the failure is reported only to the
submitting connection and no room-wide emission occurs, while the actual
exemption from the turn-ownership check is any action typed `DISCONNECT`
(the synthetic `END_TURN` of the disconnect path passes the check because the
departing holder is its actor): such an action mutates nothing but does
trigger the room-wide state broadcast. -/
theorem claim2_amended_nonholder_rejection (game : Game) (pid : String) (a : Action)
    (randIdx : Nat)
    (hnot : game.gameState.currentTurnPlayerId ≠ some pid) :
    (a.type ≠ "DISCONNECT" →
      processAction game pid a randIdx
        = (game, [Emit.senderChat "ERROR: It is not your turn to act." "error"]))
    ∧ (a.type = "DISCONNECT" →
      processAction game pid a randIdx
        = (game, [Emit.logMsg ("Unknown action type: " ++ a.type), Emit.roomState game.id])) := by
  constructor
  · intro hd
    unfold processAction
    rw [if_pos ⟨hnot, hd⟩]
  · intro hd
    unfold processAction
    rw [hd]
    simp

/-- C2 witness: the amended theorem applied to a non-holder of the fixture
room, for an ordinary action and for a `DISCONNECT`-typed action. -/
theorem claim2_witness :
    (("END_TURN" : String) ≠ "DISCONNECT" →
      processAction wRoom "P2" { type := "END_TURN", territoryId := none, targetId := none } 0
        = (wRoom, [Emit.senderChat "ERROR: It is not your turn to act." "error"]))
    ∧ (("END_TURN" : String) = "DISCONNECT" →
      processAction wRoom "P2" { type := "END_TURN", territoryId := none, targetId := none } 0
        = (wRoom, [Emit.logMsg ("Unknown action type: " ++ "END_TURN"), Emit.roomState wRoom.id])) :=
  claim2_amended_nonholder_rejection wRoom "P2"
    { type := "END_TURN", territoryId := none, targetId := none } 0 (by decide)

/-- C5: every `END_TURN` executed by the holder updates, for every player of
the room, exactly the money field, by `(production + research)` minus `10`
times the number of territories that player owns; every other player field
is unchanged. -/
theorem claim5_endTurn_money_delta (game : Game) (pid : String) (randIdx : Nat)
    (hhold : game.gameState.currentTurnPlayerId = some pid) :
    (processAction game pid { type := "END_TURN", territoryId := none, targetId := none } randIdx).1.players
      = game.players.map (fun q =>
          (q.1, { q.2 with resources := { q.2.resources with
              money := q.2.resources.money
                + (q.2.resources.production + q.2.resources.research)
                - 10 * (((valuesOf game.gameState.territories).filter
                    (fun t => t.ownerId = some q.1)).length : Int) } })) := by
  rw [processAction_endTurn_players game pid randIdx hhold]
  unfold applyTurnEndEffects
  simp only []
  apply List.map_congr_left
  intro q hq
  have harith : q.2.resources.money
      + (q.2.resources.research + q.2.resources.production)
      - (((valuesOf game.gameState.territories).filter
          (fun t => t.ownerId = some q.1)).length : Int) * 10
      = q.2.resources.money
      + (q.2.resources.production + q.2.resources.research)
      - 10 * (((valuesOf game.gameState.territories).filter
          (fun t => t.ownerId = some q.1)).length : Int) := by ring
  rw [harith]

/-- C5 witness: the theorem applied to the fixture room (where `P1` owns one
territory and has nonzero production and research). -/
theorem claim5_witness :
    (processAction wRoom "P1" { type := "END_TURN", territoryId := none, targetId := none } 0).1.players
      = wRoom.players.map (fun q =>
          (q.1, { q.2 with resources := { q.2.resources with
              money := q.2.resources.money
                + (q.2.resources.production + q.2.resources.research)
                - 10 * (((valuesOf wRoom.gameState.territories).filter
                    (fun t => t.ownerId = some q.1)).length : Int) } })) :=
  claim5_endTurn_money_delta wRoom "P1" 0 rfl

/-- C6: `joinServer` fails with the not-found notice when the room id is
unregistered, with the wrong-password notice when a (truthy) password is set
and differs from the supplied one, and with the full notice when the player
count has reached the configured maximum; in each failure the registry (and
so the room's player mapping and count) is unchanged, the socket's room
variable is not set, and only the requester is notified. -/
theorem claim6_join_failures (games : List (String × Game)) (sock sid : String)
    (pw name : Option String) (color : String) :
    (lookupKey games sid = none →
      joinServer games sock sid pw name color
        = (games, none, [Emit.senderFailed "Server not found."]))
    ∧
    (∀ g s, lookupKey games sid = some g → g.password = some s → s ≠ "" →
      some s ≠ pw →
      joinServer games sock sid pw name color
        = (games, none, [Emit.senderFailed "Incorrect password."]))
    ∧
    (∀ g, lookupKey games sid = some g →
      ¬(jsTruthy g.password = true ∧ g.password ≠ pw) →
      g.settings.maxPlayers ≤ (keysOf g.players).length →
      joinServer games sock sid pw name color
        = (games, none, [Emit.senderFailed "Server is full."])) := by
  refine ⟨?_, ?_, ?_⟩
  · intro h
    unfold joinServer
    rw [h]
  · intro g s hg hpw hne hnepw
    unfold joinServer
    rw [hg]
    simp only []
    rw [if_pos ⟨by simp [jsTruthy, hpw, hne], by rw [hpw]; exact hnepw⟩]
  · intro g hg hnpw hfull
    unfold joinServer
    rw [hg]
    simp only []
    rw [if_neg hnpw, if_pos hfull]

/-- C6 witness: the three failure branches on concrete registries — unknown
id, wrong password on a password-protected room, and a room at its player
limit. -/
theorem claim6_witness :
    (joinServer [("G1", wRoomPw)] "S9" "XX" (some "x") none "#0"
       = ([("G1", wRoomPw)], none, [Emit.senderFailed "Server not found."]))
    ∧ (joinServer [("G1", wRoomPw)] "S9" "G1" (some "wrong") none "#0"
       = ([("G1", wRoomPw)], none, [Emit.senderFailed "Incorrect password."]))
    ∧ (joinServer [("G1", wRoomFull)] "S9" "G1" none none "#0"
       = ([("G1", wRoomFull)], none, [Emit.senderFailed "Server is full."])) :=
  ⟨(claim6_join_failures [("G1", wRoomPw)] "S9" "XX" (some "x") none "#0").1 (by decide),
   (claim6_join_failures [("G1", wRoomPw)] "S9" "G1" (some "wrong") none "#0").2.1
     wRoomPw "hunter2" (by decide) rfl (by decide) (by decide),
   (claim6_join_failures [("G1", wRoomFull)] "S9" "G1" none none "#0").2.2
     wRoomFull (by decide) (by decide) (by decide)⟩

/-- C7 counterexample: an unrecognized action type submitted by the holder
mutates nothing and is only logged, but the handler still falls through to
the room-wide `stateUpdate` broadcast, refuting "no room-wide broadcast
occurs". -/
theorem claim7_counterexample :
    (processAction wRoom "P1" { type := "FOO", territoryId := none, targetId := none } 0).1 = wRoom
    ∧ (processAction wRoom "P1" { type := "FOO", territoryId := none, targetId := none } 0).2
        = [Emit.logMsg "Unknown action type: FOO", Emit.roomState "G1"]
    ∧ Emit.roomState "G1"
        ∈ (processAction wRoom "P1" { type := "FOO", territoryId := none, targetId := none } 0).2 := by
  refine ⟨by decide, by decide, by decide⟩

/-- C7 (amended): an action whose type is none of the recognized kinds causes
no mutation of the room and no sender-directed notice — it is logged only —
but when it reaches the switch (holder submitting it, or type `DISCONNECT`)
the unconditional authoritative `stateUpdate` broadcast to the room still
occurs; a non-holder's unrecognized action of any other type is instead
rejected by the turn check with no broadcast. -/
theorem claim7_amended_unknown_action (game : Game) (pid : String) (a : Action) (randIdx : Nat)
    (h1 : a.type ≠ "CLAIM_TERRITORY") (h2 : a.type ≠ "ATTACK_TERRITORY")
    (h3 : a.type ≠ "EXPAND_LAND") (h4 : a.type ≠ "BUILD_UNIT")
    (h5 : a.type ≠ "PROPOSE_TRUCE") (h6 : a.type ≠ "RESEARCH")
    (h7 : a.type ≠ "CREATE_BUILDING") (h8 : a.type ≠ "UPGRADE_TERRITORY")
    (h9 : a.type ≠ "START_TASK") (h10 : a.type ≠ "PROPOSE_ALLY")
    (h11 : a.type ≠ "PROPOSE_TRADE") (h12 : a.type ≠ "END_TURN")
    (hpass : game.gameState.currentTurnPlayerId = some pid ∨ a.type = "DISCONNECT") :
    processAction game pid a randIdx
      = (game, [Emit.logMsg ("Unknown action type: " ++ a.type), Emit.roomState game.id]) := by
  have hcheck : ¬(game.gameState.currentTurnPlayerId ≠ some pid ∧ a.type ≠ "DISCONNECT") := by
    rcases hpass with h | h
    · intro hc; exact hc.1 h
    · intro hc; exact hc.2 h
  unfold processAction
  rw [if_neg hcheck, if_neg h1, if_neg h2, if_neg h3, if_neg h4, if_neg h5]
  rw [if_neg (by simp [h6, h7, h8, h9, h10, h11])]
  rw [if_neg h12]

/-- C4: `CLAIM_TERRITORY` by the current-turn holder: a missing territory
fails with the not-found notice, an already-owned one with the
already-claimed notice, too little money with the insufficient-funds notice,
each leaving the room unchanged and notifying only the sender; on an
existing, unowned territory with money at least the fixed claim cost it
deducts exactly that cost, sets the owner to the claimant, sets the garrison
to the fixed starting value 1, and adds exactly the territory's production
value to the claimant's production. -/
theorem claim4_claimTerritory (game : Game) (pid tid : String) (randIdx : Nat)
    (hhold : game.gameState.currentTurnPlayerId = some pid) :
    (lookupKey game.gameState.territories tid = none →
      processAction game pid { type := "CLAIM_TERRITORY", territoryId := some tid, targetId := none } randIdx
        = (game, [Emit.senderChat "ERROR: Territory not found." "error"]))
    ∧
    (∀ terr owner, lookupKey game.gameState.territories tid = some terr →
      terr.ownerId = some owner →
      processAction game pid { type := "CLAIM_TERRITORY", territoryId := some tid, targetId := none } randIdx
        = (game, [Emit.senderChat "ERROR: Territory is already claimed." "error"]))
    ∧
    (∀ terr player, lookupKey game.gameState.territories tid = some terr →
      terr.ownerId = none → lookupKey game.players pid = some player →
      player.resources.money < BASE_CLAIM_COST →
      processAction game pid { type := "CLAIM_TERRITORY", territoryId := some tid, targetId := none } randIdx
        = (game, [Emit.senderChat
            ("ERROR: Not enough money! Requires $" ++ toString BASE_CLAIM_COST ++ ".") "error"]))
    ∧
    (∀ terr player, lookupKey game.gameState.territories tid = some terr →
      terr.ownerId = none → lookupKey game.players pid = some player →
      BASE_CLAIM_COST ≤ player.resources.money →
      processAction game pid { type := "CLAIM_TERRITORY", territoryId := some tid, targetId := none } randIdx
        = ({ game with
              players := setEntry game.players pid
                { player with resources := { player.resources with
                    money := player.resources.money - BASE_CLAIM_COST,
                    production := player.resources.production + terr.productionValue } },
              gameState := { game.gameState with
                territories := setEntry game.gameState.territories tid
                  { terr with ownerId := some pid, militaryUnits := 1 } } },
           [Emit.roomState game.id])) := by
  refine ⟨?_, ?_, ?_, ?_⟩
  · intro hnone
    unfold processAction
    simp [hhold, hnone]
  · intro terr owner hterr hown
    unfold processAction
    simp [hhold, hterr, hown]
  · intro terr player hterr hown hp hmoney
    unfold processAction
    simp [hhold, hterr, hown, hp, hmoney]
  · intro terr player hterr hown hp hmoney
    unfold processAction
    simp [hhold, hterr, hown, hp, not_lt.mpr hmoney]

/-- C4 witness: the success branch of the theorem on the fixture room, where
the holder `P1` claims the unowned territory `T-1`. -/
theorem claim4_witness :
    processAction wRoom "P1" { type := "CLAIM_TERRITORY", territoryId := some "T-1", targetId := none } 0
      = ({ wRoom with
            players := setEntry wRoom.players "P1"
              { wPlayer "P1" 5000 200 50 with resources :=
                  { (wPlayer "P1" 5000 200 50).resources with
                    money := (wPlayer "P1" 5000 200 50).resources.money - BASE_CLAIM_COST,
                    production := (wPlayer "P1" 5000 200 50).resources.production
                      + wTerr1.productionValue } },
            gameState := { wRoom.gameState with
              territories := setEntry wRoom.gameState.territories "T-1"
                { wTerr1 with ownerId := some "P1", militaryUnits := 1 } } },
         [Emit.roomState wRoom.id]) :=
  (claim4_claimTerritory wRoom "P1" "T-1" 0 rfl).2.2.2 wTerr1 (wPlayer "P1" 5000 200 50)
    rfl rfl rfl (by decide)

theorem step_join_notFound (s' : SystemState) (gid sock2 : String)
    (pw nm : Option String) (c : String)
    (h : lookupKey s'.games gid = none) :
    step s' (Event.join sock2 gid pw nm c) = (s', [Emit.senderFailed "Server not found."]) := by
  unfold step joinServer
  dsimp only
  rw [h]

/-- C8 counterexample: immediately after `createServer`, the registry holds a
room whose player mapping is empty (the creator is not auto-joined), so the
reachable state `wState1` refutes "at no point does the Room Registry contain
a room whose player mapping is empty". -/
theorem claim8_counterexample :
    Reached wState1
    ∧ lookupKey wState1.games "R1" = some wCreatedRoom
    ∧ wCreatedRoom.players = [] :=
  ⟨Reached.next initState (Event.create "S0" "R1" wCreateData (fun _ => 0)) Reached.init,
   rfl, rfl⟩

/-- C8 (amended): a room emptied by a disconnect is destroyed: when the sole
remaining player disconnects, the room is removed from the registry and a
subsequent join to that id fails with the not-found notice and changes
nothing; freshly created rooms, however, sit in the registry with an empty
player mapping until their first join. -/
theorem claim8_amended_empty_room_deleted (s : SystemState) (gid sock : String)
    (g : Game) (r : Nat)
    (hcur : lookupKey s.currentGameOf sock = some gid)
    (hg : lookupKey s.games gid = some g)
    (hsole : keysOf g.players = [sock]) :
    lookupKey (step s (Event.disconnect sock r)).1.games gid = none
    ∧ ∀ (sock2 : String) (pw nm : Option String) (c : String),
        (step (step s (Event.disconnect sock r)).1 (Event.join sock2 gid pw nm c)).1
          = (step s (Event.disconnect sock r)).1
        ∧ (step (step s (Event.disconnect sock r)).1 (Event.join sock2 gid pw nm c)).2
          = [Emit.senderFailed "Server not found."] := by
  have hdel : lookupKey (step s (Event.disconnect sock r)).1.games gid = none := by
    show lookupKey (handleDisconnect s.games (lookupKey s.currentGameOf sock) sock r).1 gid = none
    rw [hcur]
    unfold handleDisconnect
    simp only [hg]
    obtain ⟨p, hp⟩ := lookupKey_isSome_of_mem g.players sock (by rw [hsole]; simp)
    simp only [hp]
    generalize hG1 : (if g.gameState.currentTurnPlayerId = some sock
        then processAction g sock
          { type := "END_TURN", territoryId := none, targetId := none } r
        else (g, ([] : List Emit))) = R
    have hkeys : keysOf R.1.players = keysOf g.players := by
      rw [← hG1]
      by_cases hc : g.gameState.currentTurnPlayerId = some sock
      · rw [if_pos hc]
        exact (processAction_shape g sock _ r).1
      · rw [if_neg hc]
    have hlen0 : (keysOf (removeKey R.1.players sock)).length = 0 := by
      rw [keysOf_removeKey, hkeys, hsole]
      simp
    rw [if_pos hlen0]
    exact lookupKey_removeKey_self s.games gid
  refine ⟨hdel, ?_⟩
  intro sock2 pw nm c
  rw [step_join_notFound _ gid sock2 pw nm c hdel]
  exact ⟨rfl, rfl⟩

/-- C8 witness: the amended theorem on the concrete state with `S1` as the
sole player of room `R1`. -/
theorem claim8_witness :
    lookupKey (step wState2 (Event.disconnect "S1" 0)).1.games "R1" = none
    ∧ (step (step wState2 (Event.disconnect "S1" 0)).1
          (Event.join "S2" "R1" none none "#0")).2
        = [Emit.senderFailed "Server not found."] :=
  ⟨(claim8_amended_empty_room_deleted wState2 "R1" "S1" wJoinedRoom 0 rfl rfl rfl).1,
   ((claim8_amended_empty_room_deleted wState2 "R1" "S1" wJoinedRoom 0 rfl rfl rfl).2
      "S2" none none "#0").2⟩

/-- C7 witness: the amended theorem applied to the holder submitting the
unrecognized type `FOO` in the fixture room. -/
theorem claim7_witness :
    processAction wRoom "P1" { type := "FOO", territoryId := none, targetId := none } 0
      = (wRoom, [Emit.logMsg ("Unknown action type: " ++ "FOO"), Emit.roomState wRoom.id]) :=
  claim7_amended_unknown_action wRoom "P1"
    { type := "FOO", territoryId := none, targetId := none } 0
    (by decide) (by decide) (by decide) (by decide) (by decide) (by decide)
    (by decide) (by decide) (by decide) (by decide) (by decide) (by decide)
    (Or.inl rfl)

/-- C10: the server list exposes only public metadata plus the boolean
`hasPassword` flag and never the password value: two registries that agree
entry-by-entry except on the concrete (non-empty) password string of rooms
produce identical `serverList` payloads. -/
theorem claim10_serverList_password_noninterference
    (games games' : List (String × Game))
    (h : List.Forall₂ (fun a b => a.1 = b.1 ∧
        (a.2 = b.2 ∨
          (∃ p p', p ≠ "" ∧ p' ≠ "" ∧ a.2.password = some p ∧ b.2.password = some p'
            ∧ ({ a.2 with password := none } : Game) = { b.2 with password := none })))
        games games') :
    requestServerList games = requestServerList games' := by
  induction h with
  | nil => rfl
  | cons hab htail ih =>
    rename_i a b as bs
    unfold requestServerList at ih ⊢
    simp only [valuesOf, List.map_cons] at ih ⊢
    have hhd : summarize a.2 = summarize b.2 := by
      rcases hab.2 with he | ⟨p, p', hp, hp', hpa, hpb, heq⟩
      · rw [he]
      · have heq' := heq
        simp only [Game.mk.injEq, and_true, true_and] at heq'
        obtain ⟨hid, hsn, hhn, hst, hplr, hgs⟩ := heq'
        have hpw : jsTruthy a.2.password = jsTruthy b.2.password := by
          rw [hpa, hpb]
          simp [jsTruthy, hp, hp']
        unfold summarize
        rw [hid, hsn, hhn, hplr, hst, hgs, hpw]
    rw [hhd, ih]

/-- C10 witness: two singleton registries whose only difference is the
concrete non-empty password of the registered room yield the same list. -/
theorem claim10_witness :
    requestServerList [("G1", wRoomPw)]
      = requestServerList [("G1", { wRoomPw with password := some "pw2" })] :=
  claim10_serverList_password_noninterference _ _
    (List.Forall₂.cons
      ⟨rfl, Or.inr ⟨"hunter2", "pw2", by decide, by decide, rfl, rfl, rfl⟩⟩
      List.Forall₂.nil)

theorem length_filter_ne (l : List String) (x : String) (hnd : l.Nodup) (hx : x ∈ l) :
    (l.filter (fun y => ¬ y = x)).length + 1 = l.length := by
  induction l with
  | nil => simp at hx
  | cons a t ih =>
    rcases List.nodup_cons.mp hnd with ⟨ha, ht⟩
    by_cases hax : a = x
    · subst hax
      rw [List.filter_cons_of_neg (by simp)]
      have heq : t.filter (fun y => ¬ y = a) = t :=
        List.filter_eq_self.mpr (fun b hb => by
          simp only [decide_eq_true_eq]
          intro hba
          exact ha (hba ▸ hb))
      rw [heq]
      simp
    · have hxt : x ∈ t := by
        rcases List.mem_cons.mp hx with he | he
        · exact (hax he.symm).elim
        · exact he
      rw [List.filter_cons_of_pos (by simp [hax])]
      simp only [List.length_cons]
      have := ih ht hxt
      omega

end UMG

namespace SV

open UMG (lookupKey keysOf removeKey setEntry Emit lookupKey_isSome_of_mem
  mem_of_lookupKey lookupKey_setEntry_self keysOf_removeKey length_filter_ne
  lookupKey_removeKey_other)

/-- C9: in the reduced variant's disconnect handler, when the departing
player is the room's host and at least one player remains, `hostID` and
`hostName` are reassigned to the first remaining player in the mapping's
order and a system notice is emitted to the room; when a non-host leaves,
`hostID` and `hostName` are unchanged (only the player counter moves). -/
theorem claim9_host_reassignment (games : List (String × SGame))
    (pts : List (String × String)) (pid sid : String) (g : SGame)
    (hpts : lookupKey pts pid = some sid)
    (hg : lookupKey games sid = some g)
    (hmem : pid ∈ keysOf g.players)
    (hnd : (keysOf g.players).Nodup)
    (hcount : g.serverData.currentPlayers = ((keysOf g.players).length : Int)) :
    (∀ nh, g.serverData.hostID = pid →
      (keysOf (removeKey g.players pid)).head? = some nh →
      ∃ p, lookupKey (removeKey g.players pid) nh = some p
        ∧ lookupKey (svDisconnect games pts pid).1 sid
            = some ⟨{ sdAfterLeave g with hostID := nh, hostName := p.name },
                    removeKey g.players pid⟩
        ∧ Emit.roomChat sid (p.name ++ " is the new host.") "system"
            ∈ (svDisconnect games pts pid).2.2)
    ∧ (g.serverData.hostID ≠ pid →
      keysOf (removeKey g.players pid) ≠ [] →
      lookupKey (svDisconnect games pts pid).1 sid
        = some ⟨sdAfterLeave g, removeKey g.players pid⟩) := by
  have hlen : (keysOf (removeKey g.players pid)).length + 1 = (keysOf g.players).length := by
    rw [keysOf_removeKey]
    exact length_filter_ne (keysOf g.players) pid hnd hmem
  obtain ⟨p0, hp0⟩ := lookupKey_isSome_of_mem g.players pid hmem
  constructor
  · intro nh hhost hnh
    have hrem_ne : keysOf (removeKey g.players pid) ≠ [] := by
      intro hc
      rw [hc] at hnh
      exact Option.noConfusion hnh
    have hzero : ¬ (g.serverData.currentPlayers - 1 = 0) := by
      rw [hcount]
      have h1 : 1 ≤ (keysOf (removeKey g.players pid)).length :=
        Nat.one_le_iff_ne_zero.mpr (fun hz => hrem_ne (List.length_eq_zero.mp hz))
      omega
    have hnhmem : nh ∈ keysOf (removeKey g.players pid) :=
      List.mem_of_mem_head? (by simp [Option.mem_def, hnh])
    obtain ⟨p, hp⟩ := lookupKey_isSome_of_mem (removeKey g.players pid) nh hnhmem
    refine ⟨p, hp, ?_, ?_⟩
    · unfold svDisconnect
      simp only [hpts, hg, hp0]
      rw [if_neg hzero, if_pos hhost]
      simp only [hnh, hp]
      exact lookupKey_setEntry_self games sid _ (mem_of_lookupKey games sid g hg)
    · unfold svDisconnect
      simp only [hpts, hg, hp0]
      rw [if_neg hzero, if_pos hhost]
      simp only [hnh, hp]
      simp
  · intro hhost hrem_ne
    have hzero : ¬ (g.serverData.currentPlayers - 1 = 0) := by
      rw [hcount]
      have h1 : 1 ≤ (keysOf (removeKey g.players pid)).length :=
        Nat.one_le_iff_ne_zero.mpr (fun hz => hrem_ne (List.length_eq_zero.mp hz))
      omega
    unfold svDisconnect
    simp only [hpts, hg, hp0]
    rw [if_neg hzero, if_neg hhost]
    exact lookupKey_setEntry_self games sid _ (mem_of_lookupKey games sid g hg)

/-- C9 witness: the theorem on the concrete two-player fixture room, with
the host `A` disconnecting and `B` the first remaining player. -/
theorem claim9_witness :
    ∃ p, lookupKey (removeKey wSGame.players "A") "B" = some p
      ∧ lookupKey (svDisconnect [("R9", wSGame)] [("A", "R9")] "A").1 "R9"
          = some ⟨{ sdAfterLeave wSGame with hostID := "B", hostName := p.name },
                  removeKey wSGame.players "A"⟩
      ∧ Emit.roomChat "R9" (p.name ++ " is the new host.") "system"
          ∈ (svDisconnect [("R9", wSGame)] [("A", "R9")] "A").2.2 :=
  (claim9_host_reassignment [("R9", wSGame)] [("A", "R9")] "A" "R9" wSGame
    rfl rfl (by decide) (by decide) rfl).1 "B" rfl rfl

end SV
